import Mathlib

/-!
# Verification of the documentation-mapper pipeline

Shallow embedding of the JavaScript sources of `documentation-mapper`:
`DependencyScanner.js`, `PackageFetcher.js`, `DocumentationCrawler.js`,
`Database.js` (SQLite path) and `DocumentationMapper.js`.  HTTP calls and
other I/O are abstracted into an explicit environment (`Env`) of oracles;
everything else is translated function-by-function from the source.
-/

namespace DocMapper

/-- String helper: does the character list start with the given pattern? -/
def leadsWith : List Char → List Char → Bool
  | [], _ => true
  | _ :: _, [] => false
  | p :: ps, c :: cs => p == c && leadsWith ps cs

/-- String helper: does the character list contain the pattern as a
contiguous segment?  (JS `String.prototype.includes`.) -/
def hasSub (pat : List Char) : List Char → Bool
  | [] => pat.isEmpty
  | c :: cs => leadsWith pat (c :: cs) || hasSub pat cs

/-- JS `a.includes(b)` on strings. -/
def strContains (s pat : String) : Bool := hasSub pat.data s.data

/-- A normalized dependency record, as produced by the Scanner
(`DependencyScanner.js`) or `loadDependenciesFromJSON`. -/
structure DepRecord where
  ecosystem : String
  name : String
  version : String
  source : String
  manifestPath : String
  isDevDependency : Bool
  deriving DecidableEq, Repr

/-- The documentation record built by `DocumentationCrawler.js`: the JS code
produces plain objects with various subsets of these fields, so each field is
optional here. -/
structure Doc where
  url : Option String := none
  content : Option String := none
  crawled_at : Option String := none
  source : Option String := none
  note : Option String := none
  error : Option String := none
  deriving DecidableEq, Repr

/-- The package entry assembled in `processDependencies` and handed to
`Database.storePackage`. -/
structure PackageData where
  ecosystem : String
  name : String
  version : String
  source : String
  description : String
  documentation : Doc
  manifestPath : String
  isDevDependency : Bool
  lastUpdated : String
  deriving DecidableEq, Repr

/-- One row of the SQLite `packages` table (`Database.js`,
`initializeSQLite`); the documentation column is kept structured, standing
for its JSON serialization. -/
structure Row where
  ecosystem : String
  name : String
  version : String
  source : String
  description : String
  documentation : Doc
  manifest_path : String
  is_dev_dependency : Bool
  last_updated : String
  deriving DecidableEq, Repr

/-- The SQLite `packages` table, in rowid order. -/
abbrev Db := List Row

-- ## Scanner: `DependencyScanner.parsePackageJson`

/-- The parsed content of a `package.json` manifest, restricted to the keys
`parsePackageJson` reads. -/
structure PackageJson where
  dependencies : List (String × String) := []
  devDependencies : List (String × String) := []

/-- JS `version.replace(/^[^\d]*/, '')`: strip every leading character that
is not a decimal digit. -/
def stripRange (v : String) : String := ⟨v.data.dropWhile (fun c => !c.isDigit)⟩

/-- `DependencyScanner.parsePackageJson`: dependencies then devDependencies,
in object-key order, with the version range operators stripped. -/
def parsePackageJson (filePath : String) (content : PackageJson) : List DepRecord :=
  (content.dependencies.map fun nv =>
    { ecosystem := "npm", name := nv.1, version := stripRange nv.2,
      source := "registry", manifestPath := filePath, isDevDependency := false })
  ++ (content.devDependencies.map fun nv =>
    { ecosystem := "npm", name := nv.1, version := stripRange nv.2,
      source := "registry", manifestPath := filePath, isDevDependency := true })

-- ## Store: `Database.js`, SQLite path

/-- The `WHERE name = ? AND version = ? AND ecosystem = ?` triple. -/
def rowHasKey (r : Row) (name version ecosystem : String) : Bool :=
  decide (r.name = name ∧ r.version = version ∧ r.ecosystem = ecosystem)

/-- `getPackageDocumentationSQLite`: exact-key lookup, `null` when absent. -/
def dbLookup (db : Db) (name version ecosystem : String) : Option Row :=
  db.find? (fun r => rowHasKey r name version ecosystem)

/-- The row written for a package entry. -/
def pdToRow (pd : PackageData) : Row :=
  { ecosystem := pd.ecosystem, name := pd.name, version := pd.version,
    source := pd.source, description := pd.description,
    documentation := pd.documentation, manifest_path := pd.manifestPath,
    is_dev_dependency := pd.isDevDependency, last_updated := pd.lastUpdated }

/-- `storePackageSQLite`: `INSERT OR REPLACE` under the
`UNIQUE(ecosystem, name, version)` constraint deletes every conflicting row
and inserts the new row (with a fresh rowid, hence at the end). -/
def storePackageSQLite (db : Db) (pd : PackageData) : Db :=
  db.filter (fun r => !rowHasKey r pd.name pd.version pd.ecosystem) ++ [pdToRow pd]

/-- The filter record passed to `queryPackages`; absent CLI options arrive
as JS `undefined`, modelled as `none`. -/
structure QueryFilters where
  package : Option String := none
  version : Option String := none
  ecosystem : Option String := none
  deriving DecidableEq, Repr

/-- JS truthiness of an optional string: `undefined` and `''` are falsy. -/
def truthy : Option String → Bool
  | none => false
  | some s => !s.isEmpty

/-- A row satisfies the `WHERE` clauses that `queryPackagesSQLite` appends:
one equality clause per truthy filter field. -/
def rowMatches (f : QueryFilters) (r : Row) : Bool :=
  (if truthy f.package then decide (some r.name = f.package) else true) &&
  (if truthy f.version then decide (some r.version = f.version) else true) &&
  (if truthy f.ecosystem then decide (some r.ecosystem = f.ecosystem) else true)

/-- `ORDER BY name, version`: lexicographic on the (name, version) pair. -/
def rowLe (a b : Row) : Prop :=
  a.name < b.name ∨ (a.name = b.name ∧ a.version ≤ b.version)

instance : DecidableRel rowLe := fun a b => by
  unfold rowLe; infer_instance

instance : IsTotal Row rowLe :=
  ⟨fun a b => by
    rcases lt_trichotomy a.name b.name with h | h | h
    · exact Or.inl (Or.inl h)
    · rcases le_total a.version b.version with hv | hv
      · exact Or.inl (Or.inr ⟨h, hv⟩)
      · exact Or.inr (Or.inr ⟨h.symm, hv⟩)
    · exact Or.inr (Or.inl h)⟩

instance : IsTrans Row rowLe :=
  ⟨fun a b c hab hbc => by
    rcases hab with hab | ⟨hab, hab'⟩
    · rcases hbc with hbc | ⟨hbc, _⟩
      · exact Or.inl (hab.trans hbc)
      · exact Or.inl (hbc ▸ hab)
    · rcases hbc with hbc | ⟨hbc, hbc'⟩
      · exact Or.inl (hab ▸ hbc)
      · exact Or.inr ⟨hab.trans hbc, hab'.trans hbc'⟩⟩

/-- `queryPackagesSQLite`: keep the rows matching every truthy filter,
ordered by name then version. -/
def queryPackagesSQLite (f : QueryFilters) (db : Db) : List Row :=
  List.insertionSort rowLe (db.filter (rowMatches f))

-- ## Crawler: `DocumentationCrawler.js`

/-- The whitespace class `\s` of a JS regular expression (also the set
trimmed by `String.prototype.trim`). -/
def isJsSpace (c : Char) : Bool :=
  c == ' ' || c == '\t' || c == '\n' || c == '\x0b' || c == '\x0c' || c == '\r' ||
  c == '\u00A0' || c == '\u1680' || ('\u2000' ≤ c && c ≤ '\u200A') ||
  c == '\u2028' || c == '\u2029' || c == '\u202F' || c == '\u205F' ||
  c == '\u3000' || c == '\uFEFF'

/-- Case-insensitive prefix test (pattern given in lower case); `/i` only
folds ASCII letters, exactly as `Char.toLower` does. -/
def ciLeads : List Char → List Char → Bool
  | [], _ => true
  | _ :: _, [] => false
  | p :: ps, c :: cs => c.toLower == p && ciLeads ps cs

/-- Drop through the first case-insensitive occurrence of `pat`, returning
the remainder after it; `none` when `pat` does not occur. -/
def dropThroughCi (pat : List Char) : List Char → Option (List Char)
  | [] => if pat.isEmpty then some [] else none
  | c :: cs =>
    if ciLeads pat (c :: cs) then some ((c :: cs).drop pat.length)
    else dropThroughCi pat cs

/-- One regex pass `/<tag[^>]*>[\s\S]*?<\/tag>/gi` with empty replacement:
at each position, an opening `<tag` followed by non-`>` characters and a `>`
and, lazily, a closing `</tag>` is removed whole; otherwise the scan moves
one character.  The `fuel` argument (initialized to the input length, an
upper bound on the scan steps) only justifies termination. -/
def removeBlocksAux (tag : List Char) : Nat → List Char → List Char
  | 0, l => l
  | _ + 1, [] => []
  | fuel + 1, c :: cs =>
    if ciLeads ('<' :: tag) (c :: cs) then
      let afterOpen := (c :: cs).drop (tag.length + 1)
      let attrs := afterOpen.takeWhile (fun a => a != '>')
      match afterOpen.drop attrs.length with
      | '>' :: rest =>
        match dropThroughCi ('<' :: '/' :: (tag ++ ['>'])) rest with
        | some rest2 => removeBlocksAux tag fuel rest2
        | none => c :: removeBlocksAux tag fuel cs
      | _ => c :: removeBlocksAux tag fuel cs
    else c :: removeBlocksAux tag fuel cs

def removeBlocks (tag : List Char) (l : List Char) : List Char :=
  removeBlocksAux tag l.length l

/-- Regex pass `/<[^>]+>/g` replaced by a single space: a `<`, at least one
non-`>` character, and a `>` become one space. -/
def stripTagsAux : Nat → List Char → List Char
  | 0, l => l
  | _ + 1, [] => []
  | fuel + 1, c :: cs =>
    if c == '<' then
      let inner := cs.takeWhile (fun a => a != '>')
      match cs.drop inner.length with
      | '>' :: rest =>
        if inner.length ≥ 1 then ' ' :: stripTagsAux fuel rest
        else c :: stripTagsAux fuel cs
      | _ => c :: stripTagsAux fuel cs
    else c :: stripTagsAux fuel cs

def stripTags (l : List Char) : List Char := stripTagsAux l.length l

/-- Regex pass `/\s+/g` replaced by a single space, tracked with a flag for
whether the previous character was part of a whitespace run. -/
def collapseWsAux : Bool → List Char → List Char
  | _, [] => []
  | prevSpace, c :: cs =>
    if isJsSpace c then
      if prevSpace then collapseWsAux true cs else ' ' :: collapseWsAux true cs
    else c :: collapseWsAux false cs

def collapseWs (l : List Char) : List Char := collapseWsAux false l

/-- JS `String.prototype.trim`. -/
def trimJs (l : List Char) : List Char :=
  ((l.dropWhile isJsSpace).reverse.dropWhile isJsSpace).reverse

/-- `DocumentationCrawler.extractTextFromHTML`: drop script blocks, drop
style blocks, turn remaining tags into spaces, collapse whitespace, trim. -/
def extractTextFromHTML (html : String) : String :=
  ⟨trimJs (collapseWs (stripTags
    (removeBlocks "style".data (removeBlocks "script".data html.data))))⟩

/-- JS `s.substring(0, n)`. -/
def substringTo (s : String) (n : Nat) : String := ⟨s.data.take n⟩

-- ### URL derivation

/-- Unreserved characters of `encodeURIComponent`. -/
def isUriUnreserved (c : Char) : Bool :=
  c.isAlpha || c.isDigit || c == '-' || c == '_' || c == '.' || c == '!' ||
  c == '~' || c == '*' || c == '\x27' || c == '(' || c == ')'

def hexDig (n : Nat) : Char :=
  if n < 10 then Char.ofNat (48 + n) else Char.ofNat (55 + n)

/-- UTF-8 bytes of a character, as naturals below 256. -/
def utf8BytesOf (c : Char) : List Nat :=
  let n := c.toNat
  if n < 0x80 then [n]
  else if n < 0x800 then [0xC0 + n / 64, 0x80 + n % 64]
  else if n < 0x10000 then [0xE0 + n / 4096, 0x80 + n / 64 % 64, 0x80 + n % 64]
  else [0xF0 + n / 262144, 0x80 + n / 4096 % 64, 0x80 + n / 64 % 64, 0x80 + n % 64]

def encodeURIComponent (s : String) : String :=
  ⟨(s.data.map fun c =>
      if isUriUnreserved c then [c]
      else (utf8BytesOf c).map (fun b => ['%', hexDig (b / 16), hexDig (b % 16)]) |>.flatten).flatten⟩

/-- JS `s.replace(p, '')` for a literal leading pattern `/^git\+/`. -/
def dropLeadStr (s p : String) : String :=
  if leadsWith p.data s.data then ⟨s.data.drop p.data.length⟩ else s

/-- JS `s.replace(/\.git$/, '')`. -/
def dropTrailStr (s p : String) : String :=
  if s.data.reverse.take p.data.length == p.data.reverse then
    ⟨s.data.take (s.data.length - p.data.length)⟩
  else s

/-- JS `name.replace(':', '/')`: replace the first `:` only. -/
def replaceFirstColon : List Char → List Char
  | [] => []
  | c :: cs => if c == ':' then '/' :: cs else c :: replaceFirstColon cs

/-- Outcome of one raw page `GET` (axios): the served HTML, or an error that
carries a response status, or an error without a response. -/
inductive PageOutcome where
  | success (html : String)
  | failure (status : Option Nat) (msg : String)
  deriving DecidableEq, Repr

/-- The environment of I/O oracles: one entry per kind of external request
the program makes, plus the configuration read from options/environment
variables and the wall clock. -/
structure Env where
  /-- Outcome of the one registry request an ecosystem branch of
  `PackageFetcher.fetchDescription` performs: the extracted description
  string, or the message of the error the branch throws. -/
  registry : DepRecord → Except String String
  /-- `repository.url` from the npm registry metadata used by
  `getDocumentationUrl` (`.ok none` when the field is missing, `.error`
  when the request fails). -/
  npmRepo : String → Except String (Option String)
  /-- `process.env.FIRECRAWL_API_KEY`. -/
  firecrawlApiKey : Option String
  /-- Markdown returned by a Firecrawl scrape of a URL, or the failure. -/
  firecrawl : String → Except String String
  /-- Outcome of the raw `axios.get` of a documentation URL at a given
  attempt number. -/
  page : String → Nat → PageOutcome
  /-- `storePackage` rejection: `some msg` when the database write fails. -/
  storeFail : PackageData → Option String
  /-- The mapper's `skipDocs` option. -/
  skipDocs : Bool
  /-- `new Date().toISOString()`. -/
  now : String

/-- `DocumentationCrawler.getDocumentationUrl`: the static per-ecosystem
rule table; npm prefers a GitHub repository URL from the registry metadata
and falls back to the npmjs.com page. -/
def getDocumentationUrl (env : Env) (dep : DepRecord) : Option String :=
  match dep.ecosystem with
  | "npm" =>
    some (match env.npmRepo dep.name with
      | .ok (some u) =>
        let repoUrl := dropTrailStr (dropLeadStr u "git+") ".git"
        if strContains repoUrl "github.com" then repoUrl
        else "https://www.npmjs.com/package/" ++ encodeURIComponent dep.name
      | _ => "https://www.npmjs.com/package/" ++ encodeURIComponent dep.name)
  | "python" | "pypi" =>
    some ("https://pypi.org/project/" ++ encodeURIComponent dep.name ++ "/" ++
      encodeURIComponent dep.version ++ "/")
  | "rust" =>
    some ("https://docs.rs/" ++ encodeURIComponent dep.name ++ "/" ++
      encodeURIComponent dep.version ++ "/")
  | "java" =>
    some ("https://mvnrepository.com/artifact/" ++
      encodeURIComponent ⟨replaceFirstColon dep.name.data⟩ ++ "/" ++
      encodeURIComponent dep.version)
  | "ruby" =>
    some ("https://rubygems.org/gems/" ++ encodeURIComponent dep.name ++
      "/versions/" ++ encodeURIComponent dep.version)
  | "go" =>
    if dep.name.startsWith "github.com/" then some ("https://" ++ dep.name)
    else some ("https://pkg.go.dev/" ++ encodeURIComponent dep.name ++ "@" ++
      encodeURIComponent dep.version)
  | "dotnet" =>
    some ("https://www.nuget.org/packages/" ++ encodeURIComponent dep.name ++
      "/" ++ encodeURIComponent dep.version)
  | "php" =>
    some ("https://packagist.org/packages/" ++ encodeURIComponent dep.name)
  | _ => none

/-- The successful raw-fetch documentation record
(`fetchBasicDocumentation`, success branch). -/
def basicFetchDoc (env : Env) (url html : String) : Doc :=
  { url := some url,
    content := some (substringTo (extractTextFromHTML html) 5000),
    crawled_at := some env.now,
    source := some "basic_fetch",
    note := some "Basic HTML text extraction - consider using Firecrawl API for better results" }

/-- The error record of a failed raw fetch. -/
def basicFetchErr (env : Env) (url msg : String) : Doc :=
  { url := some url,
    error := some ("Failed to fetch documentation: " ++ msg),
    crawled_at := some env.now }

/-- The `for (let attempt = 1; attempt <= 3; attempt++)` loop of
`fetchBasicDocumentation`.  Besides the documentation record it reports the
attempt that produced the result and the list of delays (ms) taken before
retries.  `fuel` starts at 3 and only justifies termination: the
`attempt < 3` guard always stops the recursion first. -/
def rawFetchLoop (env : Env) (url : String) : Nat → Nat → Doc × Nat × List Nat
  | attempt, 0 => (basicFetchErr env url "retry budget exhausted", attempt, [])
  | attempt, fuel + 1 =>
    match env.page url attempt with
    | .success html => (basicFetchDoc env url html, attempt, [])
    | .failure st m =>
      if st = some 403 ∧ attempt < 3 then
        let r := rawFetchLoop env url (attempt + 1) fuel
        (r.1, r.2.1, attempt * 2000 :: r.2.2)
      else (basicFetchErr env url m, attempt, [])

/-- `DocumentationCrawler.fetchBasicDocumentation`, instrumented with the
attempt count and retry delays. -/
def fetchBasicDocumentation (env : Env) (dep : DepRecord) : Doc × Nat × List Nat :=
  match getDocumentationUrl env dep with
  | none => ({ note := some "No documentation URL available for this ecosystem/package" }, 0, [])
  | some url => rawFetchLoop env url 1 3

/-- `DocumentationCrawler.crawlWithFirecrawl`: one scraping-service request;
any failure falls back to the raw fetch. -/
def crawlWithFirecrawl (env : Env) (dep : DepRecord) : Doc :=
  match getDocumentationUrl env dep with
  | none => { note := some "No documentation URL available for this ecosystem/package" }
  | some docUrl =>
    match env.firecrawl docUrl with
    | .ok markdown =>
      { url := some docUrl, content := some markdown,
        crawled_at := some env.now, source := some "firecrawl" }
    | .error _ => (fetchBasicDocumentation env dep).1

/-- The in-memory cache key `` `${ecosystem}:${name}:${version}` ``. -/
def cacheKey (dep : DepRecord) : String :=
  dep.ecosystem ++ ":" ++ dep.name ++ ":" ++ dep.version

/-- `DocumentationCrawler.crawlDocumentation`: per-run cache in front of the
Firecrawl/raw dispatch. -/
def crawlDocumentation (env : Env) (cache : List (String × Doc)) (dep : DepRecord) :
    Doc × List (String × Doc) :=
  match cache.lookup (cacheKey dep) with
  | some d => (d, cache)
  | none =>
    let documentation :=
      match env.firecrawlApiKey with
      | some _ => crawlWithFirecrawl env dep
      | none => (fetchBasicDocumentation env dep).1
    (documentation, (cacheKey dep, documentation) :: cache)

-- ## Fetcher: `PackageFetcher.js`

/-- The ecosystems that the `switch` of `fetchDescription` dispatches to a
registry helper; every other value hits the `default` branch. -/
def supportedEcosystem (e : String) : Bool :=
  decide (e = "npm" ∨ e = "python" ∨ e = "pypi" ∨ e = "rust" ∨ e = "java" ∨
    e = "ruby" ∨ e = "go" ∨ e = "dotnet" ∨ e = "php")

/-- `PackageFetcher.fetchDescription`, instrumented with the list of cache
keys for which a registry request was issued.  A supported ecosystem runs
its registry helper (`env.registry`): on success the description is cached
and returned; a thrown error is caught and turned into a placeholder that is
*not* cached.  An unsupported ecosystem caches and returns a generic
placeholder without any request. -/
def fetchDescription (env : Env) (cache : List (String × String)) (dep : DepRecord) :
    String × List (String × String) × List String :=
  match cache.lookup (cacheKey dep) with
  | some d => (d, cache, [])
  | none =>
    if supportedEcosystem dep.ecosystem then
      match env.registry dep with
      | .ok d => (d, (cacheKey dep, d) :: cache, [cacheKey dep])
      | .error m => ("Failed to fetch description: " ++ m, cache, [cacheKey dep])
    else
      let d := "Package from " ++ dep.ecosystem ++ " ecosystem"
      (d, (cacheKey dep, d) :: cache, [])

-- ## Mapper: `DocumentationMapper.processDependencies`

/-- The heterogeneous objects pushed onto `results`: the workspace
placeholder, an existing database row, a freshly stored entry, or the
error entry of the `catch` block.  Fields a shape does not carry are
`none`. -/
structure ResultEntry where
  ecosystem : String
  name : String
  version : String
  source : Option String := none
  description : Option String := none
  documentation : Option Doc := none
  manifestPath : Option String := none
  isDevDependency : Option Bool := none
  lastUpdated : Option String := none
  error : Option String := none
  deriving DecidableEq, Repr

/-- The mutable state threaded through one run: the database and the two
per-run in-memory caches. -/
structure PState where
  db : Db
  fetchCache : List (String × String) := []
  crawlCache : List (String × Doc) := []
  deriving DecidableEq, Repr

/-- Invocations of the Fetcher and the Crawler, recorded at the two call
sites inside `processDependencies`. -/
inductive CallEvent where
  | fetch (dep : DepRecord)
  | crawl (dep : DepRecord)
  deriving DecidableEq, Repr

/-- The guard `dep.version === 'workspace:*' || dep.version?.includes('workspace:')`,
as a predicate on the version string (the only field it reads). -/
def isWsVersion (version : String) : Bool :=
  version == "workspace:*" || strContains version "workspace:"

/-- The workspace-package guard of `processDependencies`. -/
def isWorkspaceDep (dep : DepRecord) : Bool := isWsVersion dep.version

/-- The result object pushed for a skipped workspace package. -/
def workspaceEntry (env : Env) (dep : DepRecord) : ResultEntry :=
  { ecosystem := dep.ecosystem, name := dep.name, version := dep.version,
    description := some ("Internal workspace package: " ++ dep.name),
    documentation := some { note := some "Workspace package - no external documentation available" },
    source := some dep.source, manifestPath := some dep.manifestPath,
    isDevDependency := some dep.isDevDependency, lastUpdated := some env.now }

/-- An existing database row pushed onto `results`. -/
def rowToResult (r : Row) : ResultEntry :=
  { ecosystem := r.ecosystem, name := r.name, version := r.version,
    source := some r.source, description := some r.description,
    documentation := some r.documentation, manifestPath := some r.manifest_path,
    isDevDependency := some r.is_dev_dependency, lastUpdated := some r.last_updated }

/-- A freshly built `packageData` pushed onto `results`. -/
def pdToResult (pd : PackageData) : ResultEntry :=
  { ecosystem := pd.ecosystem, name := pd.name, version := pd.version,
    source := some pd.source, description := some pd.description,
    documentation := some pd.documentation, manifestPath := some pd.manifestPath,
    isDevDependency := some pd.isDevDependency, lastUpdated := some pd.lastUpdated }

/-- The error entry pushed by the `catch` block of `processDependencies`. -/
def errEntry (dep : DepRecord) (msg : String) : ResultEntry :=
  { ecosystem := dep.ecosystem, name := dep.name, version := dep.version,
    error := some msg }

/-- The `packageData` object built for a record: the fetched description and
the crawled documentation (or the disabled note when `skipDocs` is set). -/
def pdOf (env : Env) (st : PState) (dep : DepRecord) : PackageData :=
  { ecosystem := dep.ecosystem, name := dep.name, version := dep.version,
    source := dep.source,
    description := (fetchDescription env st.fetchCache dep).1,
    documentation :=
      if env.skipDocs then { note := some "Documentation fetching disabled" }
      else (crawlDocumentation env st.crawlCache dep).1,
    manifestPath := dep.manifestPath, isDevDependency := dep.isDevDependency,
    lastUpdated := env.now }

/-- One iteration of the `for (const dep of dependencies)` loop of
`processDependencies`: skip workspace packages, skip records already in the
database, otherwise fetch, crawl and store.  The only step that can throw
is the database write (`env.storeFail`); its error is caught and becomes an
error entry, leaving the database untouched. -/
def processOne (env : Env) (st : PState) (dep : DepRecord) :
    ResultEntry × PState × List CallEvent :=
  if isWorkspaceDep dep then
    (workspaceEntry env dep, st, [])
  else
    match dbLookup st.db dep.name dep.version dep.ecosystem with
    | some row => (rowToResult row, st, [])
    | none =>
      let fc := (fetchDescription env st.fetchCache dep).2.1
      let cc := if env.skipDocs then st.crawlCache
                else (crawlDocumentation env st.crawlCache dep).2
      let evs := CallEvent.fetch dep ::
                 (if env.skipDocs then [] else [CallEvent.crawl dep])
      let pd := pdOf env st dep
      match env.storeFail pd with
      | none =>
        (pdToResult pd, { db := storePackageSQLite st.db pd, fetchCache := fc, crawlCache := cc }, evs)
      | some m =>
        (errEntry dep m, { db := st.db, fetchCache := fc, crawlCache := cc }, evs)

/-- `DocumentationMapper.processDependencies`: the sequential batch loop,
returning the results list, the final state and the trace of
Fetcher/Crawler invocations. -/
def processDependencies (env : Env) (st : PState) :
    List DepRecord → List ResultEntry × PState × List CallEvent
  | [] => ([], st, [])
  | dep :: deps =>
    let r := processOne env st dep
    let rest := processDependencies env r.2.1 deps
    (r.1 :: rest.1, rest.2.1, r.2.2 ++ rest.2.2)

-- ## Concrete fixtures used to instantiate the theorems

/-- An offline environment: the registry answers, every web request fails,
the database accepts writes, documentation crawling is disabled. -/
def envA : Env where
  registry := fun _ => .ok "A utility library"
  npmRepo := fun _ => .error "offline"
  firecrawlApiKey := none
  firecrawl := fun _ => .error "offline"
  page := fun _ _ => .failure (some 500) "offline"
  storeFail := fun _ => none
  skipDocs := true
  now := "2026-01-01T00:00:00.000Z"

/-- Like `envA`, but every database write fails. -/
def envB : Env :=
  { envA with storeFail := fun _ => some "SQLITE_BUSY: database is locked" }

/-- Like `envA`, but every registry fetch throws. -/
def envR : Env :=
  { envA with registry := fun _ => .error "getaddrinfo ENOTFOUND registry.npmjs.org" }

/-- Like `envA`, but the first raw page fetch is answered 403 and the second
succeeds. -/
def envC : Env :=
  { envA with page := fun _ attempt =>
      if attempt = 1 then .failure (some 403) "Request failed with status code 403"
      else .success "<p>Hi</p>" }

/-- Like `envA`, but every raw page fetch succeeds. -/
def envD : Env :=
  { envA with page := fun _ _ => .success "<b>Hello</b>   world" }

/-- A workspace-internal dependency record. -/
def depW : DepRecord :=
  { ecosystem := "npm", name := "pkg-a", version := "workspace:*",
    source := "registry", manifestPath := "apps/web/package.json",
    isDevDependency := false }

/-- An ordinary registry dependency record. -/
def dep1 : DepRecord :=
  { ecosystem := "npm", name := "lodash", version := "4.17.21",
    source := "registry", manifestPath := "package.json", isDevDependency := false }

/-- A stored row whose key triple coincides with `depW`. -/
def rowW : Row :=
  { ecosystem := "npm", name := "pkg-a", version := "workspace:*",
    source := "registry", description := "old description",
    documentation := {}, manifest_path := "apps/web/package.json",
    is_dev_dependency := false, last_updated := "2025-12-31T00:00:00.000Z" }

/-- A stored row whose key triple coincides with `dep1`. -/
def rowL : Row :=
  { ecosystem := "npm", name := "lodash", version := "4.17.21",
    source := "registry", description := "old lodash description",
    documentation := {}, manifest_path := "package.json",
    is_dev_dependency := false, last_updated := "2025-12-31T00:00:00.000Z" }

/-- A stored row used by the query counterexample. -/
def row1 : Row :=
  { ecosystem := "npm", name := "a", version := "1.0.0",
    source := "registry", description := "first", documentation := {},
    manifest_path := "package.json", is_dev_dependency := false,
    last_updated := "2025-12-31T00:00:00.000Z" }

/-- A package entry with `row1`'s key and a different description. -/
def pd1 : PackageData :=
  { ecosystem := "npm", name := "a", version := "1.0.0",
    source := "registry", description := "first", documentation := {},
    manifestPath := "package.json", isDevDependency := false,
    lastUpdated := "2025-12-31T00:00:00.000Z" }

/-- Same key as `pd1`, later description. -/
def pd2 : PackageData :=
  { pd1 with description := "second", lastUpdated := "2026-01-01T00:00:00.000Z" }

end DocMapper

open DocMapper

-- ## Helper lemmas

theorem dbLookup_eq_some {db : Db} {n v e : String} {r : Row}
    (h : dbLookup db n v e = some r) : r.name = n ∧ r.version = v ∧ r.ecosystem = e := by
  have := List.find?_some h
  simpa [rowHasKey] using this

theorem filter_not_filter (p : Row → Bool) (l : List Row) :
    (l.filter fun r => !p r).filter p = [] := by
  induction l with
  | nil => rfl
  | cons a l ih =>
    by_cases h : p a <;> simp [List.filter_cons, h, ih]

-- ## C4: upsert semantics of storePackage

/-- C4: `storePackage` is an upsert keyed by (ecosystem, name, version):
after storing two entries with the same key triple, exactly one row with
that triple remains, and querying the triple returns only the later
description. -/
theorem C4_store_upsert (db : Db) (p1 p2 : PackageData)
    (he : p1.ecosystem = p2.ecosystem) (hn : p1.name = p2.name) (hv : p1.version = p2.version)
    (hn0 : p2.name ≠ "") (hv0 : p2.version ≠ "") (he0 : p2.ecosystem ≠ "") :
    ((storePackageSQLite (storePackageSQLite db p1) p2).filter
        (fun r => rowHasKey r p2.name p2.version p2.ecosystem) = [pdToRow p2]) ∧
    (queryPackagesSQLite
        { package := some p2.name, version := some p2.version, ecosystem := some p2.ecosystem }
        (storePackageSQLite (storePackageSQLite db p1) p2)).map (fun r => r.description)
      = [p2.description] := by
  have hkey : ∀ l : Db, (storePackageSQLite l p2).filter
      (fun r => rowHasKey r p2.name p2.version p2.ecosystem) = [pdToRow p2] := by
    intro l
    simp only [storePackageSQLite, List.filter_append, filter_not_filter]
    simp [rowHasKey, pdToRow]
  have hmatch : ∀ r : Row, rowMatches
      { package := some p2.name, version := some p2.version, ecosystem := some p2.ecosystem } r
      = rowHasKey r p2.name p2.version p2.ecosystem := by
    intro r
    have t1 : truthy (some p2.name) = true := by
      simp only [truthy, Bool.not_eq_true', Bool.not_eq_false]
      exact (Bool.not_eq_true _).mp (fun hh => hn0 ((String.isEmpty_iff _).mp hh))
    have t2 : truthy (some p2.version) = true := by
      simp only [truthy, Bool.not_eq_true', Bool.not_eq_false]
      exact (Bool.not_eq_true _).mp (fun hh => hv0 ((String.isEmpty_iff _).mp hh))
    have t3 : truthy (some p2.ecosystem) = true := by
      simp only [truthy, Bool.not_eq_true', Bool.not_eq_false]
      exact (Bool.not_eq_true _).mp (fun hh => he0 ((String.isEmpty_iff _).mp hh))
    simp only [rowMatches, t1, t2, t3, if_true, rowHasKey, Option.some.injEq]
    by_cases h1 : r.name = p2.name <;> by_cases h2 : r.version = p2.version <;>
      by_cases h3 : r.ecosystem = p2.ecosystem <;> simp [h1, h2, h3]
  refine ⟨hkey _, ?_⟩
  have : (storePackageSQLite (storePackageSQLite db p1) p2).filter
      (rowMatches { package := some p2.name, version := some p2.version,
                    ecosystem := some p2.ecosystem }) = [pdToRow p2] := by
    rw [List.filter_congr (fun r _ => hmatch r)]
    exact hkey _
  simp [queryPackagesSQLite, this, List.insertionSort, pdToRow]

/-- C4 witness: upserting two concrete entries with the same key leaves only
the later description queryable. -/
theorem C4_store_upsert_witness :
    (((storePackageSQLite (storePackageSQLite [] pd1) pd2).filter
        (fun r => rowHasKey r pd2.name pd2.version pd2.ecosystem) = [pdToRow pd2]) ∧
      (queryPackagesSQLite
        { package := some pd2.name, version := some pd2.version, ecosystem := some pd2.ecosystem }
        (storePackageSQLite (storePackageSQLite [] pd1) pd2)).map (fun r => r.description)
        = [pd2.description]) :=
  C4_store_upsert [] pd1 pd2 (by decide) (by decide) (by decide)
    (by decide) (by decide) (by decide)

-- ## C5: query semantics

/-- C5 counterexample: a supplied filter field does not always restrict the
result to exact matches.  A query whose `package` filter is the supplied
empty string returns the stored row named `"a"`, because JS truthiness makes
`queryPackagesSQLite` drop the `name = ?` clause for `''`. -/
theorem C5_counterexample :
    queryPackagesSQLite { package := some "" } [row1] = [row1] ∧ row1.name ≠ "" := by
  constructor
  · rfl
  · decide

/-- C5 (amended): the query returns exactly the stored rows matching every
truthy filter clause, sorted by name then version; an empty filter record
returns every stored entry, and every supplied *non-empty* filter value
restricts the result to rows whose field equals it exactly. -/
theorem C5_query_filter_sort (f : QueryFilters) (db : Db) :
    List.Perm (queryPackagesSQLite f db) (db.filter (rowMatches f)) ∧
    List.Sorted rowLe (queryPackagesSQLite f db) ∧
    List.Perm (queryPackagesSQLite {} db) db ∧
    (∀ r ∈ queryPackagesSQLite f db,
      (∀ v, f.package = some v → v ≠ "" → r.name = v) ∧
      (∀ v, f.version = some v → v ≠ "" → r.version = v) ∧
      (∀ v, f.ecosystem = some v → v ≠ "" → r.ecosystem = v)) := by
  refine ⟨List.perm_insertionSort rowLe _, List.sorted_insertionSort rowLe _, ?_, ?_⟩
  · have : db.filter (rowMatches {}) = db := by
      apply List.filter_eq_self.mpr
      intro r _
      simp [rowMatches, truthy]
    simpa [queryPackagesSQLite, this] using List.perm_insertionSort rowLe db
  · intro r hr
    have hm : rowMatches f r = true :=
      List.of_mem_filter ((List.mem_insertionSort rowLe).mp hr)
    simp only [rowMatches, Bool.and_eq_true] at hm
    refine ⟨?_, ?_, ?_⟩
    · intro v hv hne
      have := hm.1.1
      rw [hv] at this
      have ht : truthy (some v) = true := by
        simp only [truthy, Bool.not_eq_true', Bool.not_eq_false]
        exact (Bool.not_eq_true _).mp (fun hh => hne ((String.isEmpty_iff _).mp hh))
      rw [if_pos ht] at this
      simpa using of_decide_eq_true this
    · intro v hv hne
      have := hm.1.2
      rw [hv] at this
      have ht : truthy (some v) = true := by
        simp only [truthy, Bool.not_eq_true', Bool.not_eq_false]
        exact (Bool.not_eq_true _).mp (fun hh => hne ((String.isEmpty_iff _).mp hh))
      rw [if_pos ht] at this
      simpa using of_decide_eq_true this
    · intro v hv hne
      have := hm.2
      rw [hv] at this
      have ht : truthy (some v) = true := by
        simp only [truthy, Bool.not_eq_true', Bool.not_eq_false]
        exact (Bool.not_eq_true _).mp (fun hh => hne ((String.isEmpty_iff _).mp hh))
      rw [if_pos ht] at this
      simpa using of_decide_eq_true this

/-- C5 witness: a concrete ecosystem-filtered query is a permutation of the
concretely filtered table. -/
theorem C5_query_filter_sort_witness :
    List.Perm (queryPackagesSQLite { ecosystem := some "npm" } [row1, rowW])
      (([row1, rowW] : Db).filter (rowMatches { ecosystem := some "npm" })) :=
  (C5_query_filter_sort { ecosystem := some "npm" } [row1, rowW]).1

-- ## C9: the Fetcher cache holds only successful descriptions

/-- C9: on a cache miss, a thrown registry fetch yields the
`Failed to fetch description:` placeholder and leaves the cache unchanged,
so the very next call with the same key issues a registry request again;
a successful fetch, and the unsupported-ecosystem placeholder, are cached,
and a second call with the same key returns the cached string without any
registry request. -/
theorem C9_fetch_cache (env : Env) (cache : List (String × String)) (dep : DepRecord)
    (hmiss : cache.lookup (cacheKey dep) = none) :
    (∀ m, supportedEcosystem dep.ecosystem = true → env.registry dep = .error m →
      fetchDescription env cache dep =
        ("Failed to fetch description: " ++ m, cache, [cacheKey dep]) ∧
      (fetchDescription env (fetchDescription env cache dep).2.1 dep).2.2 = [cacheKey dep]) ∧
    (∀ d, supportedEcosystem dep.ecosystem = true → env.registry dep = .ok d →
      fetchDescription env cache dep = (d, (cacheKey dep, d) :: cache, [cacheKey dep]) ∧
      fetchDescription env ((cacheKey dep, d) :: cache) dep =
        (d, (cacheKey dep, d) :: cache, [])) ∧
    (supportedEcosystem dep.ecosystem = false →
      fetchDescription env cache dep =
        ("Package from " ++ dep.ecosystem ++ " ecosystem",
         (cacheKey dep, "Package from " ++ dep.ecosystem ++ " ecosystem") :: cache, []) ∧
      fetchDescription env
          ((cacheKey dep, "Package from " ++ dep.ecosystem ++ " ecosystem") :: cache) dep =
        ("Package from " ++ dep.ecosystem ++ " ecosystem",
         (cacheKey dep, "Package from " ++ dep.ecosystem ++ " ecosystem") :: cache, []) ) := by
  refine ⟨?_, ?_, ?_⟩
  · intro m hs he
    have h1 : fetchDescription env cache dep =
        ("Failed to fetch description: " ++ m, cache, [cacheKey dep]) := by
      simp [fetchDescription, hmiss, hs, he]
    exact ⟨h1, by rw [h1]; simp [fetchDescription, hmiss, hs, he]⟩
  · intro d hs ho
    constructor
    · simp [fetchDescription, hmiss, hs, ho]
    · simp [fetchDescription, List.lookup]
  · intro hs
    constructor
    · simp [fetchDescription, hmiss, hs]
    · simp [fetchDescription, List.lookup]

/-- C9 witness: concrete cache-miss behaviour for a failing registry, for a
successful registry, and for an unsupported ecosystem. -/
theorem C9_fetch_cache_witness :
    fetchDescription envR [] dep1 =
      ("Failed to fetch description: " ++ "getaddrinfo ENOTFOUND registry.npmjs.org",
       [], [cacheKey dep1]) ∧
    fetchDescription envA [] dep1 =
      ("A utility library", [(cacheKey dep1, "A utility library")], [cacheKey dep1]) :=
  ⟨((C9_fetch_cache envR [] dep1 (by decide)).1
      "getaddrinfo ENOTFOUND registry.npmjs.org" (by decide) rfl).1,
   ((C9_fetch_cache envA [] dep1 (by decide)).2.1 "A utility library" (by decide) rfl).1⟩

-- ## C8: parsePackageJson example

/-- C8: parsing a package.json whose dependencies are
`{"lodash": "^4.17.21"}` yields exactly the record
(npm, lodash, 4.17.21, isDevDependency false) — the leading range operator
is stripped — and every devDependencies entry yields a record with
`isDevDependency := true`. -/
theorem C8_parse_package_json :
    (∀ path, parsePackageJson path { dependencies := [("lodash", "^4.17.21")] } =
      [{ ecosystem := "npm", name := "lodash", version := "4.17.21",
         source := "registry", manifestPath := path, isDevDependency := false }]) ∧
    (∀ path c n v, (n, v) ∈ c.devDependencies →
      ({ ecosystem := "npm", name := n, version := stripRange v, source := "registry",
         manifestPath := path, isDevDependency := true } : DepRecord)
        ∈ parsePackageJson path c) := by
  constructor
  · intro path
    simp only [parsePackageJson, List.map_cons, List.map_nil, List.nil_append,
      List.append_nil, List.cons.injEq, and_true]
    have : stripRange "^4.17.21" = "4.17.21" := by decide
    simp [this]
  · intro path c n v hmem
    simp only [parsePackageJson, List.mem_append, List.mem_map]
    exact Or.inr ⟨(n, v), hmem, rfl⟩

/-- C8 witness: the devDependencies half at a concrete manifest. -/
theorem C8_parse_package_json_witness :
    (("mocha", "^10.0.0") ∈
      (PackageJson.mk [] [("mocha", "^10.0.0")]).devDependencies) ∧
    ({ ecosystem := "npm", name := "mocha", version := stripRange "^10.0.0",
       source := "registry", manifestPath := "package.json",
       isDevDependency := true } : DepRecord)
      ∈ parsePackageJson "package.json" (PackageJson.mk [] [("mocha", "^10.0.0")]) :=
  ⟨by decide,
   C8_parse_package_json.2 "package.json" (PackageJson.mk [] [("mocha", "^10.0.0")])
     "mocha" "^10.0.0" (by decide)⟩

-- ## C2: bounded retry of the raw crawl path

/-- C2: the raw-HTML crawl path attempts the page fetch at most 3 times; a
further attempt happens only when the previous response carried the
forbidden (403) status checked by the code, each retry being preceded by a
delay of attempt × 2000 ms; any other failure of the first attempt returns
the error-note record immediately. -/
theorem C2_raw_fetch_retry (env : Env) (dep : DepRecord) (url : String)
    (hurl : getDocumentationUrl env dep = some url) :
    (1 ≤ (fetchBasicDocumentation env dep).2.1 ∧ (fetchBasicDocumentation env dep).2.1 ≤ 3) ∧
    (∀ k, 1 ≤ k → k < (fetchBasicDocumentation env dep).2.1 →
      ∃ m, env.page url k = .failure (some 403) m) ∧
    ((fetchBasicDocumentation env dep).2.2 =
      (List.range ((fetchBasicDocumentation env dep).2.1 - 1)).map (fun i => (i + 1) * 2000)) ∧
    (∀ st m, env.page url 1 = .failure st m → st ≠ some 403 →
      (fetchBasicDocumentation env dep).2.1 = 1 ∧
      (fetchBasicDocumentation env dep).1 = basicFetchErr env url m) := by
  have hfb : fetchBasicDocumentation env dep = rawFetchLoop env url 1 3 := by
    simp [fetchBasicDocumentation, hurl]
  rw [hfb]
  cases h1 : env.page url 1 with
  | success html =>
    refine ⟨by simp [rawFetchLoop, h1], ?_, by simp [rawFetchLoop, h1], ?_⟩
    · intro k hk1 hk2
      simp [rawFetchLoop, h1] at hk2
      omega
    · intro st m hpage
      cases hpage
  | failure st1 m1 =>
    by_cases h403 : st1 = some 403
    · subst h403
      cases h2 : env.page url 2 with
      | success html =>
        refine ⟨by simp [rawFetchLoop, h1, h2], ?_,
                by simp [rawFetchLoop, h1, h2] <;> decide, ?_⟩
        · intro k hk1 hk2
          simp only [rawFetchLoop, h1, h2] at hk2 ⊢
          norm_num at hk2
          interval_cases k
          · exact ⟨m1, h1⟩
        · intro st m hpage hne
          injection hpage with hst _
          exact absurd hst.symm hne
      | failure st2 m2 =>
        by_cases h403b : st2 = some 403
        · subst h403b
          cases h3 : env.page url 3 with
          | success html =>
            refine ⟨by simp [rawFetchLoop, h1, h2, h3], ?_,
                    by simp [rawFetchLoop, h1, h2, h3, List.range_succ] <;> decide, ?_⟩
            · intro k hk1 hk2
              simp only [rawFetchLoop, h1, h2, h3] at hk2 ⊢
              norm_num at hk2
              interval_cases k
              · exact ⟨m1, h1⟩
              · exact ⟨m2, h2⟩
            · intro st m hpage hne
              injection hpage with hst _
              exact absurd hst.symm hne
          | failure st3 m3 =>
            refine ⟨by simp [rawFetchLoop, h1, h2, h3], ?_,
                    by simp [rawFetchLoop, h1, h2, h3, List.range_succ] <;> decide, ?_⟩
            · intro k hk1 hk2
              simp only [rawFetchLoop, h1, h2, h3] at hk2 ⊢
              norm_num at hk2
              interval_cases k
              · exact ⟨m1, h1⟩
              · exact ⟨m2, h2⟩
            · intro st m hpage hne
              injection hpage with hst _
              exact absurd hst.symm hne
        · refine ⟨by simp [rawFetchLoop, h1, h2, h403b], ?_,
                  by simp [rawFetchLoop, h1, h2, h403b] <;> decide, ?_⟩
          · intro k hk1 hk2
            simp only [rawFetchLoop, h1, h2] at hk2 ⊢
            simp [h403b] at hk2
            interval_cases k
            · exact ⟨m1, h1⟩
          · intro st m hpage hne
            injection hpage with hst _
            exact absurd hst.symm hne
    · refine ⟨by simp [rawFetchLoop, h1, h403], ?_, by simp [rawFetchLoop, h1, h403], ?_⟩
      · intro k hk1 hk2
        simp [rawFetchLoop, h1, h403] at hk2
        omega
      · intro st m hpage _
        injection hpage with hst hm
        subst hst
        subst hm
        exact ⟨by simp [rawFetchLoop, h1, h403], by simp [rawFetchLoop, h1, h403]⟩

/-- C2 witness: with a 403 on the first attempt and success on the second,
the loop stops at attempt 2 after a single 2000 ms delay. -/
theorem C2_raw_fetch_retry_witness :
    getDocumentationUrl envC dep1 = some "https://www.npmjs.com/package/lodash" ∧
    ((fetchBasicDocumentation envC dep1).2.2 =
      (List.range ((fetchBasicDocumentation envC dep1).2.1 - 1)).map (fun i => (i + 1) * 2000)) :=
  ⟨by decide,
   (C2_raw_fetch_retry envC dep1 "https://www.npmjs.com/package/lodash" (by decide)).2.2.1⟩

-- ## C7: content extraction and the 5000-character budget

theorem rawFetchLoop_content (env : Env) (url : String) :
    ∀ fuel attempt doc n ds c, rawFetchLoop env url attempt fuel = (doc, n, ds) →
      doc.content = some c →
      ∃ html, env.page url n = .success html ∧ doc = basicFetchDoc env url html := by
  intro fuel
  induction fuel with
  | zero =>
    intro attempt doc n ds c heq hc
    simp only [rawFetchLoop, Prod.mk.injEq] at heq
    rw [← heq.1] at hc
    simp [basicFetchErr] at hc
  | succ fuel ih =>
    intro attempt doc n ds c heq hc
    rw [rawFetchLoop] at heq
    cases hp : env.page url attempt with
    | success html =>
      rw [hp] at heq
      simp only [Prod.mk.injEq] at heq
      obtain ⟨hdoc, hn, -⟩ := heq
      refine ⟨html, ?_, hdoc.symm⟩
      rw [← hn]
      exact hp
    | failure st m =>
      rw [hp] at heq
      by_cases hif : st = some 403 ∧ attempt < 3
      · simp only [if_pos hif, Prod.mk.injEq] at heq
        obtain ⟨hdoc, hn, -⟩ := heq
        exact ih (attempt + 1) doc n (rawFetchLoop env url (attempt + 1) fuel).2.2 c
          (by rw [← hdoc, ← hn]) hc
      · simp only [if_neg hif, Prod.mk.injEq] at heq
        rw [← heq.1] at hc
        simp [basicFetchErr] at hc

/-- C7: every documentation record produced by a successful raw fetch has
`content` equal to the page HTML run through `extractTextFromHTML`
(script/style removal, tag stripping, whitespace collapsing) and truncated
by `substring(0, 5000)`, so its length never exceeds 5000 characters. -/
theorem C7_content_budget (env : Env) (dep : DepRecord) (url : String)
    (doc : Doc) (n : Nat) (ds : List Nat) (c : String)
    (hurl : getDocumentationUrl env dep = some url)
    (heq : fetchBasicDocumentation env dep = (doc, n, ds))
    (hc : doc.content = some c) :
    (∃ html, env.page url n = .success html ∧
      c = substringTo (extractTextFromHTML html) 5000) ∧
    c.length ≤ 5000 := by
  have hfb : fetchBasicDocumentation env dep = rawFetchLoop env url 1 3 := by
    simp [fetchBasicDocumentation, hurl]
  rw [hfb] at heq
  obtain ⟨html, hp, hdoc⟩ := rawFetchLoop_content env url 3 1 doc n ds c heq hc
  rw [hdoc] at hc
  simp only [basicFetchDoc, Option.some.injEq] at hc
  refine ⟨⟨html, hp, hc.symm⟩, ?_⟩
  rw [← hc]
  show (substringTo (extractTextFromHTML html) 5000).data.length ≤ 5000
  simp [substringTo]

/-- C7 witness: a concrete successful fetch yields the extracted, truncated
text, within budget. -/
theorem C7_content_budget_witness :
    ((fetchBasicDocumentation envD dep1).1.content = some "Hello world") ∧
    (∃ html, envD.page "https://www.npmjs.com/package/lodash" (fetchBasicDocumentation envD dep1).2.1
        = .success html ∧
      "Hello world" = substringTo (extractTextFromHTML html) 5000) ∧
    ("Hello world" : String).length ≤ 5000 :=
  ⟨by decide,
   (C7_content_budget envD dep1 "https://www.npmjs.com/package/lodash"
      (fetchBasicDocumentation envD dep1).1 (fetchBasicDocumentation envD dep1).2.1
      (fetchBasicDocumentation envD dep1).2.2 "Hello world"
      (by decide) rfl (by decide)).1,
   (C7_content_budget envD dep1 "https://www.npmjs.com/package/lodash"
      (fetchBasicDocumentation envD dep1).1 (fetchBasicDocumentation envD dep1).2.1
      (fetchBasicDocumentation envD dep1).2.2 "Hello world"
      (by decide) rfl (by decide)).2⟩

-- ## Helper lemmas about processOne / processDependencies

theorem processOne_workspace (env : Env) (st : PState) (dep : DepRecord)
    (h : isWorkspaceDep dep = true) :
    processOne env st dep = (workspaceEntry env dep, st, []) := by
  simp [processOne, h]

theorem processOne_existing (env : Env) (st : PState) (dep : DepRecord) (row : Row)
    (h : isWorkspaceDep dep = false)
    (hlk : dbLookup st.db dep.name dep.version dep.ecosystem = some row) :
    processOne env st dep = (rowToResult row, st, []) := by
  simp [processOne, h, hlk]

theorem processOne_events (env : Env) (st : PState) (d : DepRecord) (e : CallEvent)
    (he : e ∈ (processOne env st d).2.2) :
    isWorkspaceDep d = false ∧
    dbLookup st.db d.name d.version d.ecosystem = none ∧
    (e = CallEvent.fetch d ∨ e = CallEvent.crawl d) := by
  by_cases hws : isWorkspaceDep d
  · simp [processOne, hws] at he
  · cases hlk : dbLookup st.db d.name d.version d.ecosystem with
    | some row => simp [processOne, hws, hlk] at he
    | none =>
      refine ⟨by simpa using hws, rfl, ?_⟩
      cases hsf : env.storeFail (pdOf env st d) with
      | none =>
        simp only [processOne, hws, hlk, hsf, Bool.false_eq_true, if_false] at he
        by_cases hs : env.skipDocs <;> simp [hs] at he <;> tauto
      | some m =>
        simp only [processOne, hws, hlk, hsf, Bool.false_eq_true, if_false] at he
        by_cases hs : env.skipDocs <;> simp [hs] at he <;> tauto

theorem processOne_fields (env : Env) (st : PState) (dep : DepRecord) :
    (processOne env st dep).1.ecosystem = dep.ecosystem ∧
    (processOne env st dep).1.name = dep.name ∧
    (processOne env st dep).1.version = dep.version := by
  by_cases hws : isWorkspaceDep dep
  · simp [processOne, hws, workspaceEntry]
  · cases hdl : dbLookup st.db dep.name dep.version dep.ecosystem with
    | some r =>
      obtain ⟨h1, h2, h3⟩ := dbLookup_eq_some hdl
      simp [processOne, hws, hdl, rowToResult, h1, h2, h3]
    | none =>
      cases hsf : env.storeFail (pdOf env st dep) with
      | none =>
        simp only [processOne, hws, hdl, Bool.false_eq_true, if_false, hsf]
        simp [pdToResult, pdOf]
      | some m =>
        simp only [processOne, hws, hdl, Bool.false_eq_true, if_false, hsf]
        simp [errEntry]

theorem find?_store_of_key_ne (pd : PackageData) (n v e : String)
    (h : rowHasKey (pdToRow pd) n v e = false) :
    ∀ db : Db, dbLookup (storePackageSQLite db pd) n v e = dbLookup db n v e := by
  intro db
  induction db with
  | nil =>
    simp [storePackageSQLite, dbLookup, List.find?, h]
  | cons r db ih =>
    by_cases hq : rowHasKey r pd.name pd.version pd.ecosystem
    · have hr : rowHasKey r n v e = false := by
        apply decide_eq_false
        rintro ⟨g1, g2, g3⟩
        obtain ⟨q1, q2, q3⟩ := of_decide_eq_true hq
        apply of_decide_eq_false h
        refine ⟨?_, ?_, ?_⟩ <;> simp [pdToRow]
        · rw [← q1, g1]
        · rw [← q2, g2]
        · rw [← q3, g3]
      simp only [storePackageSQLite, List.filter_cons, hq, Bool.not_true,
        Bool.false_eq_true, if_false, dbLookup, List.find?_cons, hr] at ih ⊢
      exact ih
    · simp only [storePackageSQLite, List.filter_cons, (by simp [hq] : (!rowHasKey r pd.name pd.version pd.ecosystem) = true),
        if_true, List.cons_append, dbLookup, List.find?_cons] at ih ⊢
      cases hr : rowHasKey r n v e
      · exact ih
      · rfl

theorem processOne_db_lookup (env : Env) (st : PState) (d : DepRecord)
    (n v e : String) (row : Row)
    (hlk : dbLookup st.db n v e = some row) :
    dbLookup (processOne env st d).2.1.db n v e = some row := by
  by_cases hws : isWorkspaceDep d
  · simpa [processOne, hws] using hlk
  · cases hdl : dbLookup st.db d.name d.version d.ecosystem with
    | some r2 => simpa [processOne, hws, hdl] using hlk
    | none =>
      cases hsf : env.storeFail (pdOf env st d) with
      | some m => simpa [processOne, hws, hdl, hsf] using hlk
      | none =>
        have hkey : rowHasKey (pdToRow (pdOf env st d)) n v e = false := by
          apply decide_eq_false
          rintro ⟨g1, g2, g3⟩
          simp only [pdToRow, pdOf] at g1 g2 g3
          rw [g1, g2, g3] at hdl
          rw [hdl] at hlk
          cases hlk
        simp only [processOne, hws, hdl, hsf, Bool.false_eq_true, if_false]
        rw [find?_store_of_key_ne _ _ _ _ hkey]
        exact hlk

theorem filter_store_of_version_ne (db : Db) (pd : PackageData) (n v e : String)
    (hv : pd.version ≠ v) :
    (storePackageSQLite db pd).filter (fun r => rowHasKey r n v e) =
      db.filter (fun r => rowHasKey r n v e) := by
  have hrow : rowHasKey (pdToRow pd) n v e = false := by
    apply decide_eq_false
    rintro ⟨g1, g2, g3⟩
    exact hv (by simpa [pdToRow] using g2)
  induction db with
  | nil => simp [storePackageSQLite, hrow]
  | cons r db ih =>
    by_cases hq : rowHasKey r pd.name pd.version pd.ecosystem
    · have hr : rowHasKey r n v e = false := by
        apply decide_eq_false
        rintro ⟨g1, g2, g3⟩
        obtain ⟨q1, q2, q3⟩ := of_decide_eq_true hq
        exact hv (by rw [← q2, g2])
      simp only [storePackageSQLite, List.filter_cons, hq, Bool.not_true,
        Bool.false_eq_true, if_false, hr] at ih ⊢
      exact ih
    · simp only [storePackageSQLite, List.filter_cons,
        (by simp [hq] : (!rowHasKey r pd.name pd.version pd.ecosystem) = true),
        if_true, List.cons_append] at ih ⊢
      cases hr : rowHasKey r n v e
      · simpa [hr] using ih
      · simpa [hr] using ih

theorem processOne_filter_ws (env : Env) (st : PState) (d : DepRecord)
    (n v e : String) (hv : isWsVersion v = true) :
    (processOne env st d).2.1.db.filter (fun r => rowHasKey r n v e) =
      st.db.filter (fun r => rowHasKey r n v e) := by
  by_cases hws : isWorkspaceDep d
  · simp [processOne, hws]
  · cases hdl : dbLookup st.db d.name d.version d.ecosystem with
    | some r2 => simp [processOne, hws, hdl]
    | none =>
      cases hsf : env.storeFail (pdOf env st d) with
      | some m => simp [processOne, hws, hdl, hsf]
      | none =>
        simp only [processOne, hws, hdl, hsf, Bool.false_eq_true, if_false]
        apply filter_store_of_version_ne
        intro hveq
        have : isWsVersion (pdOf env st d).version = true := by rw [hveq]; exact hv
        simp only [pdOf] at this
        rw [isWorkspaceDep] at hws
        exact hws this

theorem processDependencies_length (env : Env) (st : PState) (deps : List DepRecord) :
    (processDependencies env st deps).1.length = deps.length := by
  induction deps generalizing st with
  | nil => simp [processDependencies]
  | cons d ds ih => simp [processDependencies, ih]

-- ## C1: workspace packages skip Fetcher/Crawler

/-- C1 counterexample: for the workspace record `depW`, processing stores
nothing — the database stays empty, refuting "the record is stored" — while
the returned result entry does carry the placeholder description. -/
theorem C1_counterexample :
    (processDependencies envA ⟨[], [], []⟩ [depW]).2.1.db = [] ∧
    (processDependencies envA ⟨[], [], []⟩ [depW]).1 = [workspaceEntry envA depW] := by
  constructor <;> rfl

/-- C1 (amended): a record whose version is `workspace:*` or contains
`workspace:` is never sent to the Fetcher or the Crawler; its result entry
is the fixed workspace placeholder (description
`Internal workspace package: <name>`); and nothing is written to the Store
for its key triple — the rows under that triple are exactly those already
present. -/
theorem C1_workspace_skip (env : Env) (st : PState) (deps : List DepRecord)
    (dep : DepRecord) (hws : isWorkspaceDep dep = true) :
    (CallEvent.fetch dep ∉ (processDependencies env st deps).2.2 ∧
     CallEvent.crawl dep ∉ (processDependencies env st deps).2.2) ∧
    (∀ i : Nat, deps[i]? = some dep →
      (processDependencies env st deps).1[i]? = some (workspaceEntry env dep)) ∧
    ((processDependencies env st deps).2.1.db.filter
        (fun r => rowHasKey r dep.name dep.version dep.ecosystem) =
      st.db.filter (fun r => rowHasKey r dep.name dep.version dep.ecosystem)) := by
  induction deps generalizing st with
  | nil => simp [processDependencies]
  | cons d ds ih =>
    obtain ⟨⟨ihf, ihc⟩, ihr, ihdb⟩ := ih (processOne env st d).2.1
    have hstep : ∀ e, e ∈ (processOne env st d).2.2 →
        e ≠ CallEvent.fetch dep ∧ e ≠ CallEvent.crawl dep := by
      intro e he
      obtain ⟨hwsd, _, hor⟩ := processOne_events env st d e he
      rcases hor with rfl | rfl
      · refine ⟨fun hh => ?_, fun hh => CallEvent.noConfusion hh⟩
        injection hh with hd
        rw [hd] at hwsd
        rw [hwsd] at hws
        cases hws
      · refine ⟨fun hh => CallEvent.noConfusion hh, fun hh => ?_⟩
        injection hh with hd
        rw [hd] at hwsd
        rw [hwsd] at hws
        cases hws
    refine ⟨⟨?_, ?_⟩, ?_, ?_⟩
    · simp only [processDependencies, List.mem_append]
      rintro (h | h)
      · exact (hstep _ h).1 rfl
      · exact ihf h
    · simp only [processDependencies, List.mem_append]
      rintro (h | h)
      · exact (hstep _ h).2 rfl
      · exact ihc h
    · intro i hi
      cases i with
      | zero =>
        simp only [List.getElem?_cons_zero, Option.some.injEq] at hi
        subst hi
        simp only [processDependencies, List.getElem?_cons_zero, Option.some.injEq]
        rw [processOne_workspace env st d hws]
      | succ i =>
        simp only [List.getElem?_cons_succ] at hi
        simp only [processDependencies, List.getElem?_cons_succ]
        exact ihr i hi
    · simp only [processDependencies]
      rw [ihdb]
      exact processOne_filter_ws env st d _ _ _ hws

/-- C1 witness: the amended statement at the concrete workspace record and
an empty store. -/
theorem C1_workspace_skip_witness :
    isWorkspaceDep depW = true ∧
    ((processDependencies envA ⟨[], [], []⟩ [depW]).2.1.db.filter
        (fun r => rowHasKey r depW.name depW.version depW.ecosystem) =
      (PState.mk [] [] []).db.filter
        (fun r => rowHasKey r depW.name depW.version depW.ecosystem)) :=
  ⟨by decide, (C1_workspace_skip envA ⟨[], [], []⟩ [depW] depW (by decide)).2.2⟩

-- ## C3: per-record isolation of failures

/-- C3: `processDependencies` is total over the batch: it returns exactly
one result entry per input record, in order, and each entry carries its
record's ecosystem, name and version — a per-record failure (modelled by
the store-rejection oracle; fetch and crawl failures are already absorbed
inside `fetchDescription`/`crawlDocumentation`) never aborts the remaining
records. -/
theorem C3_batch_isolation (env : Env) (st : PState) (deps : List DepRecord) :
    ((processDependencies env st deps).1.length = deps.length) ∧
    (∀ (i : Nat) (d : DepRecord) (r : ResultEntry), deps[i]? = some d → (processDependencies env st deps).1[i]? = some r →
      r.ecosystem = d.ecosystem ∧ r.name = d.name ∧ r.version = d.version) := by
  induction deps generalizing st with
  | nil => simp [processDependencies]
  | cons d0 ds ih =>
    refine ⟨by simp [processDependencies, (ih (processOne env st d0).2.1).1], ?_⟩
    intro i d r hi hr
    cases i with
    | zero =>
      simp only [List.getElem?_cons_zero, Option.some.injEq] at hi
      simp only [processDependencies, List.getElem?_cons_zero, Option.some.injEq] at hr
      subst hi
      subst hr
      exact processOne_fields env st d0
    | succ i =>
      simp only [List.getElem?_cons_succ] at hi
      simp only [processDependencies, List.getElem?_cons_succ] at hr
      exact (ih (processOne env st d0).2.1).2 i d r hi hr

/-- C3 witness: with a store that rejects every write, a two-record batch
still yields two result entries, the first being the caught error entry. -/
theorem C3_batch_isolation_witness :
    ((processDependencies envB ⟨[], [], []⟩ [dep1, depW]).1.length = 2) ∧
    ((errEntry dep1 "SQLITE_BUSY: database is locked").ecosystem = dep1.ecosystem ∧
     (errEntry dep1 "SQLITE_BUSY: database is locked").name = dep1.name ∧
     (errEntry dep1 "SQLITE_BUSY: database is locked").version = dep1.version) :=
  ⟨by simpa using (C3_batch_isolation envB ⟨[], [], []⟩ [dep1, depW]).1,
   (C3_batch_isolation envB ⟨[], [], []⟩ [dep1, depW]).2 0 dep1
     (errEntry dep1 "SQLITE_BUSY: database is locked") rfl (by decide)⟩

-- ## C6: records already present in the Store

/-- C6 counterexample: a workspace record whose key triple is already
present in the Store is answered with the freshly built workspace
placeholder, not with the existing stored entry, because the workspace
check precedes the database check. -/
theorem C6_counterexample :
    dbLookup [rowW] depW.name depW.version depW.ecosystem = some rowW ∧
    (processDependencies envA ⟨[rowW], [], []⟩ [depW]).1 = [workspaceEntry envA depW] ∧
    workspaceEntry envA depW ≠ rowToResult rowW := by
  refine ⟨rfl, rfl, by decide⟩

/-- C6 (amended): for every *non-workspace* record whose (ecosystem, name,
version) triple is already stored, `processDependencies` answers with the
existing stored entry, never invokes the Fetcher or the Crawler for it, and
leaves the stored entry unchanged (the key still resolves to the very same
row afterwards). -/
theorem C6_skip_existing (env : Env) (st : PState) (deps : List DepRecord)
    (dep : DepRecord) (row : Row)
    (hws : isWorkspaceDep dep = false)
    (hlk : dbLookup st.db dep.name dep.version dep.ecosystem = some row) :
    (∀ i : Nat, deps[i]? = some dep →
      (processDependencies env st deps).1[i]? = some (rowToResult row)) ∧
    (CallEvent.fetch dep ∉ (processDependencies env st deps).2.2 ∧
     CallEvent.crawl dep ∉ (processDependencies env st deps).2.2) ∧
    dbLookup (processDependencies env st deps).2.1.db dep.name dep.version dep.ecosystem
      = some row := by
  induction deps generalizing st with
  | nil => simpa [processDependencies] using hlk
  | cons d ds ih =>
    have hlk2 : dbLookup (processOne env st d).2.1.db dep.name dep.version dep.ecosystem
        = some row := processOne_db_lookup env st d _ _ _ row hlk
    obtain ⟨ihr, ⟨ihf, ihc⟩, ihdb⟩ := ih (processOne env st d).2.1 hlk2
    refine ⟨?_, ⟨?_, ?_⟩, ?_⟩
    · intro i hi
      cases i with
      | zero =>
        simp only [List.getElem?_cons_zero, Option.some.injEq] at hi
        subst hi
        simp only [processDependencies, List.getElem?_cons_zero, Option.some.injEq]
        rw [processOne_existing env st d row hws hlk]
      | succ i =>
        simp only [List.getElem?_cons_succ] at hi
        simp only [processDependencies, List.getElem?_cons_succ]
        exact ihr i hi
    · simp only [processDependencies, List.mem_append]
      rintro (h | h)
      · obtain ⟨hwsd, hnone, hor⟩ := processOne_events env st d _ h
        rcases hor with heq | heq
        · injection heq with hd
          rw [← hd] at hnone
          rw [hlk] at hnone
          cases hnone
        · exact CallEvent.noConfusion heq
      · exact ihf h
    · simp only [processDependencies, List.mem_append]
      rintro (h | h)
      · obtain ⟨hwsd, hnone, hor⟩ := processOne_events env st d _ h
        rcases hor with heq | heq
        · exact CallEvent.noConfusion heq
        · injection heq with hd
          rw [← hd] at hnone
          rw [hlk] at hnone
          cases hnone
      · exact ihc h
    · simpa [processDependencies] using ihdb

/-- C6 witness: the amended statement at a concrete stored row and record. -/
theorem C6_skip_existing_witness :
    isWorkspaceDep dep1 = false ∧
    dbLookup [rowL] dep1.name dep1.version dep1.ecosystem = some rowL ∧
    (processDependencies envA ⟨[rowL], [], []⟩ [dep1]).1[0]? = some (rowToResult rowL) :=
  ⟨by decide, by decide,
   (C6_skip_existing envA ⟨[rowL], [], []⟩ [dep1] dep1 rowL (by decide) (by decide)).1
     0 rfl⟩

-- ## C10: a throwing record writes nothing

/-- C10: when storing a record's entry throws, the caught error becomes the
in-memory error entry `{ecosystem, name, version, error}` and the database
is left exactly as it was — record-level atomicity. -/
theorem C10_store_failure_atomic (env : Env) (st : PState) (dep : DepRecord)
    (ds : List DepRecord) (m : String)
    (hws : isWorkspaceDep dep = false)
    (hlk : dbLookup st.db dep.name dep.version dep.ecosystem = none)
    (hsf : env.storeFail (pdOf env st dep) = some m) :
    (processDependencies env st (dep :: ds)).1[0]? = some (errEntry dep m) ∧
    (processOne env st dep).2.1.db = st.db := by
  have h1 : (processOne env st dep).1 = errEntry dep m := by
    simp only [processOne, hws, Bool.false_eq_true, if_false, hlk, hsf]
  have h2 : (processOne env st dep).2.1.db = st.db := by
    simp only [processOne, hws, Bool.false_eq_true, if_false, hlk, hsf]
  exact ⟨by simp [processDependencies, h1], h2⟩

/-- C10 witness: with the always-rejecting store, the concrete record
yields the error entry and the database value is untouched. -/
theorem C10_store_failure_atomic_witness :
    isWorkspaceDep dep1 = false ∧
    (processDependencies envB ⟨[], [], []⟩ [dep1]).1[0]? =
      some (errEntry dep1 "SQLITE_BUSY: database is locked") :=
  ⟨by decide,
   (C10_store_failure_atomic envB ⟨[], [], []⟩ dep1 []
     "SQLITE_BUSY: database is locked" (by decide) rfl rfl).1⟩
